import Mathlib

/-!
Verification development for the realtime stock-data service.

The embedding covers the two core components the specification describes:

* `QuoteService` (`src/quote/services/quote.service.ts`):
  `mapQuoteToInternalFormat` and `saveQuoteIfChanged` — change detection
  against an in-memory cache, normalization of raw broker quotes, and the
  two keyed upserts.  `saveQuoteIfChanged` is embedded exactly as in that
  file: validate the symbol, compare the five fields against the cached
  snapshot, return when unchanged, validate the mapped StockCode, issue
  both upserts; the function never consults the normalized store and
  never writes the change-detection cache.
* `MqttConnectionManager` (`src/mqtt/services/mqtt-connection.service.ts`):
  `connect`, `scheduleReconnect` and `end` — trading-window gating, the
  `isConnecting` guard, capped exponential backoff with additive jitter,
  and teardown.

JavaScript values arriving from JSON are modelled by `JsVal` (null, string,
or number as a rational).  `Number(...)` coercion is modelled on the
decimal-literal subset (optional sign, digits, optional fraction); date
parsing is modelled on strict `YYYY-MM-DDTHH:MM:SSZ` ISO strings, and
`setHours(getHours()+7)` is modelled as adding 7h of epoch milliseconds
(the deployment's timezone, Asia/Ho_Chi_Minh, has a fixed UTC offset and
no DST, so the local-hour arithmetic is an exact +7h shift of the instant).

Asynchronous effects (session opens/closes, timers, alerts, upserts) are
made explicit as output lists; module-level mutable fields become explicit
state records threaded through the functions.
-/

/-- A JavaScript value as it can appear in a parsed JSON quote field:
`null`, a string, or a number (modelled as a rational). -/
inductive JsVal where
  | vNull : JsVal
  | vStr : String → JsVal
  | vNum : ℚ → JsVal
deriving DecidableEq, Repr

/-- JavaScript truthiness for the values we model: `null`, `""` and `0`
are falsy, everything else truthy. -/
def jsTruthy : JsVal → Bool
  | .vNull => false
  | .vStr s => s != ""
  | .vNum q => q != 0

/-- Truthiness of an optional field (`undefined` is falsy). -/
def jsTruthyOpt : Option JsVal → Bool
  | none => false
  | some v => jsTruthy v

/-- A raw broker quote (`Partial<DnseQuote>`): a record of JSON fields,
modelled as an association list; absent keys are `undefined`. -/
def RawQuote := List (String × JsVal)

instance : DecidableEq RawQuote := by
  unfold RawQuote
  infer_instance

/-- Field access `quote[key]` (`undefined` when the key is absent). -/
def rawLookup (q : RawQuote) (k : String) : Option JsVal :=
  (q.find? (fun p => p.1 == k)).map (fun p => p.2)

/-- Digits-only string to a natural number; `none` on the empty list or a
non-digit character. -/
def digitsToNat : List Char → Option Nat
  | [] => none
  | cs =>
    cs.foldl
      (fun acc c =>
        match acc with
        | none => none
        | some n => if c.isDigit then some (n * 10 + (c.toNat - 48)) else none)
      (some 0)

/-- Split a character list at the first dot: the part before it and,
when a dot occurs, the part after it. -/
def splitDot : List Char → List Char × Option (List Char)
  | [] => ([], none)
  | c :: cs =>
    if c = '.' then ([], some cs)
    else
      let r := splitDot cs
      (c :: r.1, r.2)

/-- Unsigned decimal literal (`"123"`, `"12.5"`) to a rational; digits are
required on both sides of a dot. -/
def parseUnsignedDec (cs : List Char) : Option ℚ :=
  match (splitDot cs).2 with
  | none => (digitsToNat cs).map (fun n => (n : ℚ))
  | some frac =>
    match digitsToNat (splitDot cs).1, digitsToNat frac with
    | some ia, some fb => some ((ia : ℚ) + (fb : ℚ) / ((10 : ℚ) ^ frac.length))
    | _, _ => none

/-- JavaScript `Number(s)` on the decimal-literal subset: `""` coerces to
`0`, an optional leading minus sign is honoured, anything non-numeric is
`NaN`, modelled as `none`. -/
def jsStringToNumber (s : String) : Option ℚ :=
  match s.toList with
  | [] => some 0
  | '-' :: rest => (parseUnsignedDec rest).map (fun q => -q)
  | cs => parseUnsignedDec cs

/-- JavaScript `Number(v)`: numbers pass through, `null` coerces to `0`,
strings go through `jsStringToNumber`; `none` models `NaN`. -/
def jsToNumber : JsVal → Option ℚ
  | .vNull => some 0
  | .vNum q => some q
  | .vStr s => jsStringToNumber s

/-- Value of a two-digit decimal string given as two characters. -/
def twoDigits (a b : Char) : Int :=
  ((a.toNat - 48) * 10 + (b.toNat - 48) : Nat)

/-- Days from 1970-01-01 to the given civil date (proleptic Gregorian);
the standard era-based civil-date algorithm. -/
def daysFromCivil (y m d : Int) : Int :=
  let yAdj := if m ≤ 2 then y - 1 else y
  let era := yAdj / 400
  let yoe := yAdj - era * 400
  let mp := (m + 9) % 12
  let doy := (153 * mp + 2) / 5 + d - 1
  let doe := yoe * 365 + yoe / 4 - yoe / 100 + doy
  era * 146097 + doe - 719468

/-- `new Date(s)` on the strict UTC ISO format `YYYY-MM-DDTHH:MM:SSZ`,
returning epoch milliseconds; anything else is an invalid date (`none`). -/
def parseIsoDate (s : String) : Option Int :=
  match s.toList with
  | [y1, y2, y3, y4, c1, m1, m2, c2, d1, d2, tc, h1, h2, c3, n1, n2, c4, s1, s2, zc] =>
    if ([y1, y2, y3, y4, m1, m2, d1, d2, h1, h2, n1, n2, s1, s2].all Char.isDigit
        && c1 == '-' && c2 == '-' && tc == 'T' && c3 == ':' && c4 == ':' && zc == 'Z') then
      let yr := twoDigits y1 y2 * 100 + twoDigits y3 y4
      let mo := twoDigits m1 m2
      let dy := twoDigits d1 d2
      let hh := twoDigits h1 h2
      let mi := twoDigits n1 n2
      let ss := twoDigits s1 s2
      if (1 ≤ mo && mo ≤ 12 && 1 ≤ dy && dy ≤ 31 && hh ≤ 23 && mi ≤ 59 && ss ≤ 59) then
        some ((daysFromCivil yr mo dy * 86400 + hh * 3600 + mi * 60 + ss) * 1000)
      else none
    else none
  | _ => none

/-- `new Date(v)` as epoch milliseconds: a string is ISO-parsed, a number
is taken as milliseconds; `none` models an invalid date. -/
def jsDateMs : JsVal → Option Int
  | .vStr s => parseIsoDate s
  | .vNum q => some q.floor
  | .vNull => some 0

/-- A normalized (`MainQuote`) field value: `null`, text, number, a valid
date (epoch ms) or an invalid date object. -/
inductive MainVal where
  | mNull : MainVal
  | mStr : String → MainVal
  | mNum : ℚ → MainVal
  | mDate : Int → MainVal
  | mInvalidDate : MainVal
deriving DecidableEq, Repr

/-- JavaScript truthiness of a normalized field value (a `Date` object is
always truthy, valid or not). -/
def mainTruthy : MainVal → Bool
  | .mNull => false
  | .mStr s => s != ""
  | .mNum q => q != 0
  | .mDate _ => true
  | .mInvalidDate => true

/-- Truthiness of an optional normalized value (`undefined` is falsy). -/
def mainTruthyOpt : Option MainVal → Bool
  | none => false
  | some v => mainTruthy v

/-- Modelled from the spec: the field-map table `fieldMap` of
`src/quote/map/quote.map.ts`, which is not among the provided sources.
Per §6 it is an ordered mapping of normalized field name to raw field
name or null, and must include at least the stock code, the trading date,
the market identifier, and the numeric trade fields used in change
detection. -/
def fieldMap : List (String × Option String) :=
  [("StockCode", some "symbol"),
   ("TradingDate", some "tradingTime"),
   ("MarketID", some "marketId"),
   ("MatchPrice", some "matchPrice"),
   ("TotalVolumeTraded", some "totalVolumeTraded"),
   ("MatchQuantity", some "matchQuantity"),
   ("ChangedValue", some "changedValue"),
   ("ChangedRatio", some "changedRatio"),
   ("ReferencePrice", some "referencePrice"),
   ("Unsourced", none)]

/-- Modelled from the spec: the market-code lookup table `marketMap` of
`src/quote/map/quote.map.ts` (not among the provided sources); a lookup
table with pass-through fallback for unknown codes. -/
def marketMap : List (String × String) :=
  [("STO", "HOSE"), ("STX", "HNX"), ("UPX", "UPCOM")]

/-- `marketMap[value] ?? value`: translate a known market code, pass
anything unknown (or non-string) through unchanged. -/
def marketTranslate : JsVal → MainVal
  | .vStr s =>
    match (marketMap.find? (fun p => p.1 == s)).map (fun p => p.2) with
    | some t => .mStr t
    | none => .mStr s
  | .vNum q => .mNum q
  | .vNull => .mNull

/-- The generic branch of `mapQuoteToInternalFormat`:
`const num = Number(value); result[mainKey] = isNaN(num) ? value : num` —
keep the coerced number when coercion succeeds, otherwise keep the
original value. -/
def numCoerce (v : JsVal) : MainVal :=
  match jsToNumber v with
  | some q => .mNum q
  | none =>
    match v with
    | .vStr s => .mStr s
    | .vNum q => .mNum q
    | .vNull => .mNull

/-- One entry of the normalization loop body of
`QuoteService.mapQuoteToInternalFormat`: unmapped or absent source fields
become null; `TradingDate` is date-parsed and shifted +7 hours;
`MarketID` goes through `marketTranslate`; every other field through the
numeric coercion branch. -/
def mapEntry (quote : RawQuote) (mainKey : String) (dnseKey : Option String) : MainVal :=
  match dnseKey with
  | none => .mNull
  | some k =>
    match rawLookup quote k with
    | none => .mNull
    | some .vNull => .mNull
    | some v =>
      if mainKey = "TradingDate" then
        match jsDateMs v with
        | some ms => .mDate (ms + 7 * 3600000)
        | none => .mInvalidDate
      else if mainKey = "MarketID" then marketTranslate v
      else numCoerce v

/-- `QuoteService.mapQuoteToInternalFormat`: builds the normalized record
by folding the field map over the raw quote. -/
def mapQuoteToInternalFormat (quote : RawQuote) : List (String × MainVal) :=
  fieldMap.map (fun p => (p.1, mapEntry quote p.1 p.2))

/-- Field access on a normalized record (`mainQuote[key]`). -/
def mainLookup (m : List (String × MainVal)) (k : String) : Option MainVal :=
  (m.find? (fun p => p.1 == k)).map (fun p => p.2)

/-- The two validation errors `saveQuoteIfChanged` can throw:
`Symbol is required to save quote` and
`StockCode missing in mainQuote mapping`. -/
inductive SaveError where
  | symbolRequired : SaveError
  | stockCodeMissing : SaveError
deriving DecidableEq, Repr

/-- The per-symbol change-detection cache (`QuoteDnseCacheService`):
last raw snapshot observed per symbol key. -/
def CacheMap := JsVal → Option RawQuote

/-- Observable outcome of one `saveQuoteIfChanged` call: the returned or
thrown result, the upserts issued against the raw (`DnseQuote`, keyed by
symbol) and normalized (`MainQuote`, keyed by StockCode) stores, and the
cache state after the call. -/
structure SaveOutput where
  result : Except SaveError Unit
  dnseUpserts : List (JsVal × RawQuote)
  mainUpserts : List (MainVal × List (String × MainVal))
  cache : CacheMap

/-- The five compared fields of the change detection, in source order. -/
def comparedFields : List String :=
  ["matchPrice", "totalVolumeTraded", "matchQuantity", "changedValue", "changedRatio"]

/-- The `isDnseChanged` disjunction of `saveQuoteIfChanged`: no cached
snapshot, or strict inequality on any of the five compared fields. -/
def isDnseChanged (cached : Option RawQuote) (data : RawQuote) : Bool :=
  match cached with
  | none => true
  | some c => comparedFields.any (fun k => rawLookup c k != rawLookup data k)

/-- `QuoteService.saveQuoteIfChanged`, embedded line by line from
`src/quote/services/quote.service.ts:58-91`: require a truthy symbol
(else throw), read the cached snapshot, compute `isChanged` over the
five compared fields, `if (!isChanged) return;`, map to the internal
format, require a truthy mapped StockCode (else throw the distinct
error), then issue both upserts.  The method never calls
`quoteCacheService.set` and never consults the normalized store, so the
returned cache always equals the input cache and the StockCode
validation runs only on the changed path. -/
def saveQuoteIfChanged (cache : CacheMap) (data : RawQuote) : SaveOutput :=
  match rawLookup data "symbol" with
  | none => ⟨.error .symbolRequired, [], [], cache⟩
  | some sv =>
    if jsTruthy sv = false then ⟨.error .symbolRequired, [], [], cache⟩
    else
      let cached := cache sv
      if isDnseChanged cached data = false then ⟨.ok (), [], [], cache⟩
      else
        let mainQuote := mapQuoteToInternalFormat data
        match mainLookup mainQuote "StockCode" with
        | none => ⟨.error .stockCodeMissing, [], [], cache⟩
        | some sc =>
          if mainTruthy sc = false then ⟨.error .stockCodeMissing, [], [], cache⟩
          else ⟨.ok (), [(sv, data)], [(sc, mainQuote)], cache⟩

/-!
The MQTT connection manager
(`src/mqtt/services/mqtt-connection.service.ts`).  Collaborator behaviour
observed during one call — whether `isTradingTime()` holds, whether
`getValidToken()` resolves or throws, the configured broker URL, the
session handle the transport returns, and the `Math.random()` sample —
is packaged as an explicit environment record.
-/

/-- The alert subjects the connection manager can send. -/
inductive AlertKind where
  | skippedOutsideTradingHours : AlertKind
  | missingBrokerUrl : AlertKind
  | connectionError : AlertKind
deriving DecidableEq, Repr

/-- Externally visible effects of one connection-manager call. -/
inductive MqttEffect where
  | alert : AlertKind → MqttEffect
  | openSession : MqttEffect
  | closeSession : MqttEffect
  | armTimer : ℚ → MqttEffect
  | clearTimer : MqttEffect
deriving DecidableEq, Repr

/-- Base reconnect delay (`reconnectDelay = 5000`). -/
def reconnectBase : Int := 5000

/-- Reconnect delay cap (`reconnectMax = 15 * 60 * 1000`). -/
def reconnectMax : Int := 15 * 60 * 1000

/-- Mutable state of `MqttConnectionManager`: the client handle, the
`isConnecting` guard, the pending reconnect timer (the scheduled delay in
ms, `none` when no timer is pending — `clearTimeout` cancels the pending
timer; the TS field then still holds the dead handle, which is
behaviourally inert), and the current backoff delay. -/
structure ConnState where
  client : Option Nat
  isConnecting : Bool
  reconnectTimer : Option ℚ
  reconnectDelay : Int
deriving DecidableEq, Repr

/-- Field initializers of `MqttConnectionManager`. -/
def initialConnState : ConnState :=
  ⟨none, false, none, reconnectBase⟩

/-- Collaborator behaviour visible to one call. -/
structure ConnEnv where
  trading : Bool
  authOk : Bool
  brokerUrl : Option String
  sessionId : Nat
  rand : ℚ
deriving DecidableEq, Repr

/-- `MqttConnectionManager.scheduleReconnect`: outside the trading window
do nothing; otherwise cancel any pending timer, arm a one-shot timer for
`reconnectDelay + jitter` with `jitter = Math.random() * (reconnectDelay / 2)`,
then double `reconnectDelay` up to `reconnectMax`. -/
def scheduleReconnect (env : ConnEnv) (s : ConnState) : ConnState × List MqttEffect :=
  if env.trading = false then (s, [])
  else
    let jitter := env.rand * ((s.reconnectDelay : ℚ) / 2)
    let delay := (s.reconnectDelay : ℚ) + jitter
    ({ s with reconnectTimer := some delay,
              reconnectDelay := min (s.reconnectDelay * 2) reconnectMax },
     (if s.reconnectTimer.isSome then [MqttEffect.clearTimer] else [])
       ++ [MqttEffect.armTimer delay])

/-- `MqttConnectionManager.connect`: outside the trading window send the
throttled skip alert and return; while `isConnecting`, return untouched;
otherwise set the guard and run the attempt — a throwing collaborator
(auth) lands in the catch block (alert, then `scheduleReconnect`), a
missing broker URL alerts and returns, and on success the session is
opened and `reconnectDelay` resets to the base; the `finally` block
clears the guard on every path. -/
def connect (env : ConnEnv) (s : ConnState) : ConnState × List MqttEffect :=
  if env.trading = false then
    (s, [MqttEffect.alert AlertKind.skippedOutsideTradingHours])
  else if s.isConnecting then (s, [])
  else
    let s1 := { s with isConnecting := true }
    if env.authOk = false then
      let r := scheduleReconnect env s1
      ({ r.1 with isConnecting := false },
       MqttEffect.alert AlertKind.connectionError :: r.2)
    else
      match env.brokerUrl with
      | none => ({ s1 with isConnecting := false },
                 [MqttEffect.alert AlertKind.missingBrokerUrl])
      | some _ =>
        ({ s1 with client := some env.sessionId,
                   reconnectDelay := reconnectBase,
                   isConnecting := false },
         [MqttEffect.openSession])

/-- `MqttConnectionManager.end`: cancel any pending reconnect timer,
forcibly close the live session if present, clear the client handle,
reset the backoff delay to the base.  (`isConnecting` is not touched.) -/
def endConnection (s : ConnState) : ConnState × List MqttEffect :=
  (⟨none, s.isConnecting, none, reconnectBase⟩,
   (if s.reconnectTimer.isSome then [MqttEffect.clearTimer] else [])
     ++ (if s.client.isSome then [MqttEffect.closeSession] else []))

/-- One lifecycle operation on the connection manager. -/
inductive MqttOp where
  | opConnect : ConnEnv → MqttOp
  | opSchedule : ConnEnv → MqttOp
  | opEnd : MqttOp

/-- State transition of one lifecycle operation. -/
def applyOp (s : ConnState) : MqttOp → ConnState
  | .opConnect env => (connect env s).1
  | .opSchedule env => (scheduleReconnect env s).1
  | .opEnd => (endConnection s).1

/-- Connection-manager states reachable from the initial state by any
sequence of lifecycle operations. -/
inductive ReachableConn : ConnState → Prop where
  | init : ReachableConn initialConnState
  | step : ∀ s op, ReachableConn s → ReachableConn (applyOp s op)

/-- Backoff-delay bounds are preserved by every lifecycle operation. -/
theorem applyOp_delay_bounds (s : ConnState) (op : MqttOp)
    (h : reconnectBase ≤ s.reconnectDelay ∧ s.reconnectDelay ≤ reconnectMax) :
    reconnectBase ≤ (applyOp s op).reconnectDelay ∧
      (applyOp s op).reconnectDelay ≤ reconnectMax := by
  obtain ⟨h1, h2⟩ := h
  cases op with
  | opEnd =>
    simp [applyOp, endConnection, reconnectBase, reconnectMax]
  | opSchedule env =>
    simp only [applyOp, scheduleReconnect]
    by_cases ht : env.trading = false
    · simp [ht, h1, h2]
    · simp only [ht, if_false]
      constructor
      · refine le_min ?_ (by simp [reconnectBase, reconnectMax])
        simp only [reconnectBase] at h1 ⊢
        omega
      · exact min_le_right _ _
  | opConnect env =>
    simp only [applyOp, connect]
    by_cases ht : env.trading = false
    · simp [ht, h1, h2]
    · simp only [ht, if_false]
      by_cases hc : s.isConnecting
      · simp [hc, h1, h2]
      · simp only [hc, if_false]
        by_cases ha : env.authOk = false
        · simp only [ha, if_true, reduceIte]
          simp only [scheduleReconnect]
          by_cases ht2 : env.trading = false
          · simp [ht2, h1, h2]
          · simp only [ht2, if_false]
            constructor
            · refine le_min ?_ (by simp [reconnectBase, reconnectMax])
              simp only [reconnectBase] at h1 ⊢
              omega
            · exact min_le_right _ _
        · simp only [ha, reduceIte]
          cases env.brokerUrl with
          | none => simp [h1, h2]
          | some u => simp [reconnectBase, reconnectMax]

/-- Every reachable connection-manager state keeps the backoff delay
between the base and the cap. -/
theorem reachable_delay_bounds (s : ConnState) (h : ReachableConn s) :
    reconnectBase ≤ s.reconnectDelay ∧ s.reconnectDelay ≤ reconnectMax := by
  induction h with
  | init => simp [initialConnState, reconnectBase, reconnectMax]
  | step s op _ ih => exact applyOp_delay_bounds s op ih


/-- C1: the claim's post-upsert cache update does not exist in
`saveQuoteIfChanged`: the method never calls `quoteCacheService.set`, so
the cache it reads for change detection is never written (first
conjunct: the returned cache always equals the input cache, for every
input).  At the failing input — empty cache, symbol `VNM`, a changed
quote — both upserts are issued but the cached snapshot for `VNM` stays
absent, against the claim (and spec §4.4 step 7). -/
theorem saveQuoteIfChanged_cache_never_updated :
    (∀ (cache : CacheMap) (data : RawQuote),
      (saveQuoteIfChanged cache data).cache = cache) ∧
    saveQuoteIfChanged (fun _ => none)
        [("symbol", JsVal.vStr "VNM"), ("matchPrice", JsVal.vNum 5)] =
      ⟨.ok (),
       [(JsVal.vStr "VNM", [("symbol", JsVal.vStr "VNM"), ("matchPrice", JsVal.vNum 5)])],
       [(MainVal.mStr "VNM",
         mapQuoteToInternalFormat [("symbol", JsVal.vStr "VNM"), ("matchPrice", JsVal.vNum 5)])],
       fun _ => none⟩ ∧
    (saveQuoteIfChanged (fun _ => none)
        [("symbol", JsVal.vStr "VNM"), ("matchPrice", JsVal.vNum 5)]).cache
      (JsVal.vStr "VNM") = none := by
  refine ⟨?_, rfl, rfl⟩
  intro cache data
  simp only [saveQuoteIfChanged]
  cases rawLookup data "symbol" with
  | none => rfl
  | some sv =>
    by_cases h1 : jsTruthy sv = false
    · simp [h1]
    · simp only [h1, if_false]
      by_cases h2 : isDnseChanged (cache sv) data = false
      · simp [h2]
      · simp only [h2, if_false]
        cases mainLookup (mapQuoteToInternalFormat data) "StockCode" with
        | none => rfl
        | some sc =>
          by_cases h3 : mainTruthy sc = false
          · simp [h3]
          · simp [h3]

/-- C2 counterexample: with the cached snapshot equal on all five
compared fields, the call returns `ok` and issues no write to either
store.  The method has no `mainQuoteModel.exists` call — its output does
not depend on the normalized store at all — so no write is issued even
when the normalized record is missing, against the claim's self-healing
write. -/
theorem saveQuoteIfChanged_unchanged_no_selfheal_counterexample :
    saveQuoteIfChanged
        (fun k => if k = JsVal.vStr "VNM" then
          some [("symbol", JsVal.vStr "VNM"), ("matchPrice", JsVal.vNum 5)] else none)
        [("symbol", JsVal.vStr "VNM"), ("matchPrice", JsVal.vNum 5)] =
      ⟨.ok (), [], [],
       fun k => if k = JsVal.vStr "VNM" then
         some [("symbol", JsVal.vStr "VNM"), ("matchPrice", JsVal.vNum 5)] else none⟩ :=
  rfl

/-- C2 (amended): for every raw quote with a truthy symbol whose five
compared fields all equal the cached snapshot, `saveQuoteIfChanged`
returns without issuing any write and with the cache unchanged — the
unchanged path returns unconditionally; no normalized-store existence
check is performed. -/
theorem saveQuoteIfChanged_unchanged_returns_without_writing
    (cache : CacheMap) (data : RawQuote) (sv : JsVal)
    (hsym : rawLookup data "symbol" = some sv)
    (htru : jsTruthy sv = true)
    (hunch : isDnseChanged (cache sv) data = false) :
    saveQuoteIfChanged cache data = ⟨.ok (), [], [], cache⟩ := by
  simp [saveQuoteIfChanged, hsym, htru, hunch]

/-- Witness for C2's amended theorem at a concrete input: a cached
identical snapshot for symbol `HPG`. -/
theorem saveQuoteIfChanged_unchanged_returns_without_writing_witness :
    saveQuoteIfChanged
        (fun k => if k = JsVal.vStr "HPG" then
          some [("symbol", JsVal.vStr "HPG"), ("matchPrice", JsVal.vNum 7)] else none)
        [("symbol", JsVal.vStr "HPG"), ("matchPrice", JsVal.vNum 7)] =
      ⟨.ok (), [], [],
       fun k => if k = JsVal.vStr "HPG" then
         some [("symbol", JsVal.vStr "HPG"), ("matchPrice", JsVal.vNum 7)] else none⟩ :=
  saveQuoteIfChanged_unchanged_returns_without_writing
    (fun k => if k = JsVal.vStr "HPG" then
      some [("symbol", JsVal.vStr "HPG"), ("matchPrice", JsVal.vNum 7)] else none)
    [("symbol", JsVal.vStr "HPG"), ("matchPrice", JsVal.vNum 7)]
    (JsVal.vStr "HPG") (by decide) (by decide) (by decide)

/-- C7 counterexample: a quote with symbol `"0"` maps to the falsy
StockCode `0`, yet when the cache holds an equal snapshot the call
returns `ok` — the unchanged early-return (`quote.service.ts:72`)
precedes the StockCode validation, so no `StockCode missing` error is
thrown, against the claim's unconditional throw. -/
theorem saveQuoteIfChanged_stockcode_not_thrown_counterexample :
    mainTruthyOpt (mainLookup
        (mapQuoteToInternalFormat [("symbol", JsVal.vStr "0")]) "StockCode") = false ∧
    (saveQuoteIfChanged
        (fun k => if k = JsVal.vStr "0" then some [("symbol", JsVal.vStr "0")] else none)
        [("symbol", JsVal.vStr "0")]).result = .ok () :=
  ⟨by decide, rfl⟩

/-- C7 (amended): `saveQuoteIfChanged` throws `Symbol is required to
save quote` when the quote's symbol is absent (falsy), and — on the
changed path, the only path that reaches the validation — throws the
distinct `StockCode missing in mainQuote mapping` error when the mapped
StockCode is absent (falsy); in both cases it issues no upsert to either
store and leaves the change-detection cache unchanged (the function
never touches connection state — `ConnState` does not occur in its
signature).  When the quote is unchanged the call returns normally
before the StockCode validation. -/
theorem saveQuoteIfChanged_validation_errors
    (cache : CacheMap) (data : RawQuote) :
    (jsTruthyOpt (rawLookup data "symbol") = false →
      saveQuoteIfChanged cache data = ⟨.error .symbolRequired, [], [], cache⟩) ∧
    (∀ sv, rawLookup data "symbol" = some sv → jsTruthy sv = true →
      isDnseChanged (cache sv) data = true →
      mainTruthyOpt (mainLookup (mapQuoteToInternalFormat data) "StockCode") = false →
      saveQuoteIfChanged cache data = ⟨.error .stockCodeMissing, [], [], cache⟩) ∧
    SaveError.symbolRequired ≠ SaveError.stockCodeMissing := by
  refine ⟨?_, ?_, by decide⟩
  · intro hfal
    cases hsym : rawLookup data "symbol" with
    | none => simp [saveQuoteIfChanged, hsym]
    | some sv =>
      rw [hsym] at hfal
      simp only [jsTruthyOpt] at hfal
      simp [saveQuoteIfChanged, hsym, hfal]
  · intro sv hsym htru hch hscfal
    cases hsc : mainLookup (mapQuoteToInternalFormat data) "StockCode" with
    | none => simp [saveQuoteIfChanged, hsym, htru, hch, hsc]
    | some sc =>
      rw [hsc] at hscfal
      simp only [mainTruthyOpt] at hscfal
      simp [saveQuoteIfChanged, hsym, htru, hch, hsc, hscfal]

/-- Witness for C7's amended theorem at concrete inputs: a quote with no
symbol field, and an uncached (hence changed) quote with symbol `"0"`
whose mapped StockCode coerces to the number 0 and is therefore falsy. -/
theorem saveQuoteIfChanged_validation_errors_witness :
    saveQuoteIfChanged (fun _ => none) [("matchPrice", JsVal.vNum 5)] =
      ⟨.error .symbolRequired, [], [], fun _ => none⟩ ∧
    saveQuoteIfChanged (fun _ => none) [("symbol", JsVal.vStr "0")] =
      ⟨.error .stockCodeMissing, [], [], fun _ => none⟩ :=
  ⟨(saveQuoteIfChanged_validation_errors (fun _ => none)
      [("matchPrice", JsVal.vNum 5)]).1 (by decide),
   (saveQuoteIfChanged_validation_errors (fun _ => none)
      [("symbol", JsVal.vStr "0")]).2.1 (JsVal.vStr "0") (by decide)
     (by decide) (by decide) (by decide)⟩

/-- C8 counterexample: a raw quote whose `matchPrice` arrives as the
non-numeric text `"abc"` is normalized to the original string `"abc"`,
which is present and non-null — not the absent (null/undefined) value
the claim asserts for coercion failures. -/
theorem numCoerce_keeps_text_counterexample :
    mainLookup (mapQuoteToInternalFormat
        [("symbol", JsVal.vStr "VNM"), ("matchPrice", JsVal.vStr "abc")]) "MatchPrice"
      = some (MainVal.mStr "abc") ∧
    MainVal.mStr "abc" ≠ MainVal.mNull ∧
    MainVal.mStr "abc" ≠ MainVal.mNum 0 := by
  decide

/-- C8 (amended): for every mapped field outside the two special cases
(trading date, market id), a source value arriving as non-numeric text —
one on which `Number(...)` coercion fails — is kept verbatim as that text
in the produced record: never zero, never any number, and not an absent
marker. -/
theorem numCoerce_keeps_text
    (data : RawQuote) (mainKey rawKey : String) (s : String)
    (hmap : (mainKey, some rawKey) ∈ fieldMap)
    (hdate : mainKey ≠ "TradingDate") (hmarket : mainKey ≠ "MarketID")
    (hval : rawLookup data rawKey = some (JsVal.vStr s))
    (hnan : jsStringToNumber s = none) :
    (mainKey, MainVal.mStr s) ∈ mapQuoteToInternalFormat data ∧
    MainVal.mStr s ≠ MainVal.mNull ∧
    (∀ q : ℚ, MainVal.mStr s ≠ MainVal.mNum q) := by
  refine ⟨?_, by simp, by simp⟩
  have hentry : mapEntry data mainKey (some rawKey) = MainVal.mStr s := by
    simp [mapEntry, hval, hdate, hmarket, numCoerce, jsToNumber, hnan]
  have := List.mem_map_of_mem
    (fun p => (p.1, mapEntry data p.1 p.2)) hmap
  simpa [mapQuoteToInternalFormat, hentry] using this

/-- Witness for C8's amended theorem at the counterexample input. -/
theorem numCoerce_keeps_text_witness :
    ("MatchPrice", MainVal.mStr "abc") ∈ mapQuoteToInternalFormat
      [("symbol", JsVal.vStr "VNM"), ("matchPrice", JsVal.vStr "abc")] :=
  (numCoerce_keeps_text
    [("symbol", JsVal.vStr "VNM"), ("matchPrice", JsVal.vStr "abc")]
    "MatchPrice" "matchPrice" "abc"
    (by decide) (by decide) (by decide) (by decide) (by decide)).1

/-- C9: for every raw quote whose trading-date field is present and
parses to a valid UTC instant (epoch milliseconds `m`),
`mapQuoteToInternalFormat` produces a normalized `TradingDate` exactly
7 hours (25 200 000 ms) later.  The source shifts the date with
`setHours(getHours() + 7)`; in the deployment's fixed-offset timezone
(no DST) this is exactly a +7h shift of the instant. -/
theorem tradingDate_shifted_7h
    (data : RawQuote) (s : String) (m : Int)
    (hval : rawLookup data "tradingTime" = some (JsVal.vStr s))
    (hparse : parseIsoDate s = some m) :
    ("TradingDate", MainVal.mDate (m + 7 * 3600000)) ∈ mapQuoteToInternalFormat data := by
  have hentry : mapEntry data "TradingDate" (some "tradingTime")
      = MainVal.mDate (m + 7 * 3600000) := by
    simp [mapEntry, hval, jsDateMs, hparse]
  have hmem : ("TradingDate", some "tradingTime") ∈ fieldMap := by decide
  have := List.mem_map_of_mem
    (fun p => (p.1, mapEntry data p.1 p.2)) hmem
  simpa [mapQuoteToInternalFormat, hentry] using this

/-- Witness for C9 at the spec's example: raw `2024-01-01T00:00:00Z`
(epoch ms 1 704 067 200 000) maps to `2024-01-01T07:00:00Z` — the output
milliseconds equal what `2024-01-01T07:00:00Z` itself parses to. -/
theorem tradingDate_shifted_7h_witness :
    parseIsoDate "2024-01-01T00:00:00Z" = some 1704067200000 ∧
    parseIsoDate "2024-01-01T07:00:00Z" = some (1704067200000 + 7 * 3600000) ∧
    ("TradingDate", MainVal.mDate (1704067200000 + 7 * 3600000)) ∈
      mapQuoteToInternalFormat
        [("symbol", JsVal.vStr "VNM"),
         ("tradingTime", JsVal.vStr "2024-01-01T00:00:00Z")] :=
  ⟨by decide, by decide,
   tradingDate_shifted_7h
     [("symbol", JsVal.vStr "VNM"),
      ("tradingTime", JsVal.vStr "2024-01-01T00:00:00Z")]
     "2024-01-01T00:00:00Z" 1704067200000 (by decide) (by decide)⟩

/-- C3: across every sequence of lifecycle operations, the reconnect
delay starts at the base 5000 ms; whenever a reconnect is actually
scheduled (inside the trading window) the delay is doubled and capped at
the configured 15-minute maximum; a successful connect (trading window,
guard clear, auth resolves, broker URL configured) resets it to the base;
and every reachable state keeps the delay between base and cap. -/
theorem backoff_doubles_caps_resets :
    initialConnState.reconnectDelay = reconnectBase ∧
    (∀ env s, env.trading = true →
      (scheduleReconnect env s).1.reconnectDelay =
        min (s.reconnectDelay * 2) reconnectMax) ∧
    (∀ env s url, env.trading = true → s.isConnecting = false →
      env.authOk = true → env.brokerUrl = some url →
      (connect env s).1.reconnectDelay = reconnectBase) ∧
    (∀ s, ReachableConn s →
      reconnectBase ≤ s.reconnectDelay ∧ s.reconnectDelay ≤ reconnectMax) := by
  refine ⟨rfl, ?_, ?_, reachable_delay_bounds⟩
  · intro env s h
    simp [scheduleReconnect, h]
  · intro env s url ht hc ha hb
    simp [connect, ht, hc, ha, hb]

/-- Witness for C3 at concrete inputs: from the initial state a scheduled
reconnect doubles 5000 to 10000; a successful connect resets to the base;
the initial state satisfies the bounds. -/
theorem backoff_doubles_caps_resets_witness :
    (scheduleReconnect ⟨true, true, some "wss", 1, 0⟩ initialConnState).1.reconnectDelay
      = 10000 ∧
    (connect ⟨true, true, some "wss", 1, 0⟩
      (⟨none, false, none, 20000⟩ : ConnState)).1.reconnectDelay = reconnectBase ∧
    reconnectBase ≤ initialConnState.reconnectDelay := by
  refine ⟨?_, ?_, ?_⟩
  · rw [backoff_doubles_caps_resets.2.1 ⟨true, true, some "wss", 1, 0⟩ initialConnState rfl]
    decide
  · exact backoff_doubles_caps_resets.2.2.1 ⟨true, true, some "wss", 1, 0⟩
      (⟨none, false, none, 20000⟩ : ConnState) "wss" rfl rfl rfl rfl
  · exact (backoff_doubles_caps_resets.2.2.2 initialConnState ReachableConn.init).1

/-- C4: `connect()` invoked inside the trading window while a previous
connect is still in progress (`isConnecting` set) is a no-op: the
returned state is the very same record (client handle, guard, timer,
backoff delay all unchanged) and the effect list is empty, so no second
session is opened and no timer or alert is produced. -/
theorem connect_connecting_noop (env : ConnEnv) (s : ConnState)
    (ht : env.trading = true) (hc : s.isConnecting = true) :
    connect env s = (s, []) := by
  simp [connect, ht, hc]

/-- Witness for C4 at a concrete input: a manager mid-connect with a
pending timer and a live handle is untouched. -/
theorem connect_connecting_noop_witness :
    connect ⟨true, true, some "wss", 1, 0⟩
        (⟨some 3, true, some 6250, 10000⟩ : ConnState) =
      ((⟨some 3, true, some 6250, 10000⟩ : ConnState), []) :=
  connect_connecting_noop ⟨true, true, some "wss", 1, 0⟩
    (⟨some 3, true, some 6250, 10000⟩ : ConnState) rfl rfl

/-- C5: outside the trading window `connect()` returns with only the
throttled skip alert — state untouched, no session opened, no timer
armed — and `scheduleReconnect()` does nothing at all; `end()` (the only
other lifecycle operation) never arms a timer or opens a session either,
so across any sequence of operations no reconnect timer is armed and no
session is opened while the trading-window predicate is false. -/
theorem no_arm_no_open_outside_window (env : ConnEnv) (s : ConnState)
    (ht : env.trading = false) :
    connect env s = (s, [MqttEffect.alert AlertKind.skippedOutsideTradingHours]) ∧
    scheduleReconnect env s = (s, []) ∧
    (∀ d, MqttEffect.armTimer d ∉ (connect env s).2 ∧
      MqttEffect.armTimer d ∉ (scheduleReconnect env s).2 ∧
      MqttEffect.armTimer d ∉ (endConnection s).2) ∧
    MqttEffect.openSession ∉ (connect env s).2 ∧
    MqttEffect.openSession ∉ (scheduleReconnect env s).2 ∧
    MqttEffect.openSession ∉ (endConnection s).2 := by
  have hcon : connect env s
      = (s, [MqttEffect.alert AlertKind.skippedOutsideTradingHours]) := by
    simp [connect, ht]
  have hsch : scheduleReconnect env s = (s, []) := by
    simp [scheduleReconnect, ht]
  have hend : ∀ e, e ∈ (endConnection s).2 →
      e = MqttEffect.clearTimer ∨ e = MqttEffect.closeSession := by
    intro e he
    simp only [endConnection] at he
    rcases List.mem_append.mp he with h | h
    · left
      revert h
      split_ifs <;> simp_all
    · right
      revert h
      split_ifs <;> simp_all
  refine ⟨hcon, hsch, ?_, ?_, ?_, ?_⟩
  · intro d
    refine ⟨by rw [hcon]; simp, by rw [hsch]; simp, ?_⟩
    intro hmem
    rcases hend _ hmem with h | h <;> exact MqttEffect.noConfusion h
  · rw [hcon]; simp
  · rw [hsch]; simp
  · intro hmem
    rcases hend _ hmem with h | h <;> exact MqttEffect.noConfusion h

/-- Witness for C5 at a concrete input outside the trading window. -/
theorem no_arm_no_open_outside_window_witness :
    connect ⟨false, true, some "wss", 1, 0⟩
        (⟨some 3, false, some 7, 20000⟩ : ConnState) =
      ((⟨some 3, false, some 7, 20000⟩ : ConnState),
       [MqttEffect.alert AlertKind.skippedOutsideTradingHours]) ∧
    scheduleReconnect ⟨false, true, some "wss", 1, 0⟩
        (⟨some 3, false, some 7, 20000⟩ : ConnState) =
      ((⟨some 3, false, some 7, 20000⟩ : ConnState), []) :=
  ⟨(no_arm_no_open_outside_window ⟨false, true, some "wss", 1, 0⟩
      (⟨some 3, false, some 7, 20000⟩ : ConnState) rfl).1,
   (no_arm_no_open_outside_window ⟨false, true, some "wss", 1, 0⟩
      (⟨some 3, false, some 7, 20000⟩ : ConnState) rfl).2.1⟩

/-- C6: for every random sample `r ∈ [0,1)` and every reachable manager
state, the jitter `scheduleReconnect` adds is exactly
`r * (currentDelay / 2)`, hence lies in `[0, currentDelay / 2)`, and the
armed timer's delay is exactly `currentDelay + jitter` (both in the
resulting state's pending timer and in the emitted arm-timer effect). -/
theorem jitter_in_range (env : ConnEnv) (s : ConnState)
    (ht : env.trading = true) (h0 : 0 ≤ env.rand) (h1 : env.rand < 1)
    (hs : ReachableConn s) :
    0 ≤ env.rand * ((s.reconnectDelay : ℚ) / 2) ∧
    env.rand * ((s.reconnectDelay : ℚ) / 2) < (s.reconnectDelay : ℚ) / 2 ∧
    (scheduleReconnect env s).1.reconnectTimer =
      some ((s.reconnectDelay : ℚ) + env.rand * ((s.reconnectDelay : ℚ) / 2)) ∧
    MqttEffect.armTimer
        ((s.reconnectDelay : ℚ) + env.rand * ((s.reconnectDelay : ℚ) / 2))
      ∈ (scheduleReconnect env s).2 := by
  have hb := (reachable_delay_bounds s hs).1
  have hb5 : (5000 : Int) ≤ s.reconnectDelay := by
    simpa [reconnectBase] using hb
  have hpos : (0 : ℚ) < (s.reconnectDelay : ℚ) / 2 := by
    have : (5000 : ℚ) ≤ (s.reconnectDelay : ℚ) := by exact_mod_cast hb5
    linarith
  refine ⟨mul_nonneg h0 (le_of_lt hpos), ?_, ?_, ?_⟩
  · have := mul_lt_mul_of_pos_right h1 hpos
    simpa using this
  · simp [scheduleReconnect, ht]
  · simp [scheduleReconnect, ht]

/-- Witness for C6 at a concrete input: `r = 1/2` on the initial state. -/
theorem jitter_in_range_witness :
    0 ≤ (1 / 2 : ℚ) * ((initialConnState.reconnectDelay : ℚ) / 2) ∧
    (1 / 2 : ℚ) * ((initialConnState.reconnectDelay : ℚ) / 2)
      < (initialConnState.reconnectDelay : ℚ) / 2 ∧
    (scheduleReconnect ⟨true, true, some "wss", 1, 1 / 2⟩
        initialConnState).1.reconnectTimer =
      some ((initialConnState.reconnectDelay : ℚ)
        + (1 / 2 : ℚ) * ((initialConnState.reconnectDelay : ℚ) / 2)) ∧
    MqttEffect.armTimer ((initialConnState.reconnectDelay : ℚ)
        + (1 / 2 : ℚ) * ((initialConnState.reconnectDelay : ℚ) / 2))
      ∈ (scheduleReconnect ⟨true, true, some "wss", 1, 1 / 2⟩
          initialConnState).2 :=
  jitter_in_range ⟨true, true, some "wss", 1, 1 / 2⟩ initialConnState
    rfl (by norm_num) (by norm_num) ReachableConn.init

/-- C10: from every starting state, `end()` leaves a null client handle,
no pending reconnect timer, and the backoff delay reset to the base
5000 ms; consequently it is idempotent — running it twice produces the
same state as running it once. -/
theorem end_resets_state_and_idempotent (s : ConnState) :
    (endConnection s).1.client = none ∧
    (endConnection s).1.reconnectTimer = none ∧
    (endConnection s).1.reconnectDelay = reconnectBase ∧
    (endConnection (endConnection s).1).1 = (endConnection s).1 := by
  simp [endConnection]
